import Mathlib

/-
Verification of check_mqtt.py against its design specification.

Shallow embedding notes.

The script's observation core (listen_for_messages, lines 108-119) is a
while loop over wall-clock time:

    start_time = time.time()
    any_device_message_received = False
    devices_reported_back = set()
    while time.time() - start_time < listen_time:
        if any(client._userdata['message_received'].values()):
            any_device_message_received = True
            for device, message_received in ...items():
                if message_received:
                    devices_reported_back.add(device)
        time.sleep(1)
    return any_device_message_received

We discretize time at the 1-second polling cadence: the loop body (a
"poll") runs at elapsed seconds 0, 1, 2, ... while elapsed < listen_time,
and each iteration ends with a 1-second sleep.  The shared ledger
`client._userdata['message_received']` is modelled as a schedule
`L : Nat -> List (String × Bool)` giving the dict's contents at each
whole-second instant (the delivery callback mutates it concurrently; the
loop only ever reads snapshots).  `listenGo` is the loop with an explicit
fuel bound; the fuel `t.toNat` is exact because every iteration increases
`elapsed` by one toward the deadline, and `listenGo_fuel_irrelevant`
proves any sufficient fuel gives the same result, so the embedding is a
faithful while loop, not a fuel-truncated one.

The ledger dict itself (created at line 85, mutated by on_message at
lines 76-81) is modelled as an association list with Python-dict update
semantics: assignment to an existing key updates it in place, assignment
to a fresh key appends it.

main (lines 122-155) is straight-line code with no try/finally; we model
its control flow over an abstract window outcome `Except Unit Bool`
(normal return of the boolean, or an uncaught exception) and an abstract
Telegram-delivery outcome `Except String Unit` (requests.post succeeding
or raising), recording the externally visible actions as a trace.
-/

/-- State of the polling loop of listen_for_messages (lines 110-111):
the flag `any_device_message_received` and the set `devices_reported_back`. -/
structure ListenState where
  anyReceived : Bool
  reported : Finset String
deriving DecidableEq

/-- Loop state at entry (lines 110-111). -/
def initLS : ListenState := { anyReceived := false, reported := ∅ }

/-- The dict comprehension at line 85:
`{device: False for device in DEVICES}`. -/
def init_message_received (devices : List String) : List (String × Bool) :=
  devices.map (fun d => (d, false))

/-- Python dict assignment `d[k] = v`: update in place when the key is
present, append a new entry otherwise. -/
def dictSet (d : List (String × Bool)) (k : String) (v : Bool) :
    List (String × Bool) :=
  if d.any (fun p => decide (p.1 = k)) then
    d.map (fun p => if p.1 = k then (p.1, v) else p)
  else
    d ++ [(k, v)]

/-- on_message (lines 76-81): sets the entry for the arriving message's
topic to True.  No membership guard: an unconfigured topic adds a key. -/
def on_message (ledger : List (String × Bool)) (topic : String) :
    List (String × Bool) :=
  dictSet ledger topic true

/-- The ledger after a run that starts from the configured device set
(line 85) and processes the given sequence of arrival-callback topics. -/
def runLedger (devices : List String) (topics : List String) :
    List (String × Bool) :=
  topics.foldl on_message (init_message_received devices)

/-- Key set of the ledger dict. -/
def keysOf (l : List (String × Bool)) : List String := l.map Prod.fst

/-- Value stored for a key (first occurrence, as in a dict). -/
def getFlag : List (String × Bool) → String → Option Bool
  | [], _ => none
  | p :: l, k => if p.1 = k then some p.2 else getFlag l k

/-- One iteration of the loop body (lines 113-117) against a snapshot
of the ledger: if any value is true, set the aggregate flag and add
every key currently true to the reported set. -/
def pollOnce (ledger : List (String × Bool)) (s : ListenState) : ListenState :=
  if ledger.any (fun p => p.2) then
    { anyReceived := true,
      reported :=
        (ledger.filter (fun p => p.2)).foldl
          (fun acc p => insert p.1 acc) s.reported }
  else s

/-- The while loop of listen_for_messages (lines 112-118).  `elapsed` is
whole seconds since start; the condition `elapsed < listen_time` is the
source's `time.time() - start_time < listen_time`; the body polls the
snapshot `L elapsed` and then sleeps one second.  `fuel` bounds the
number of iterations (exactly `listen_time.toNat` are ever taken). -/
def listenGo (L : Nat → List (String × Bool)) (t : Int) :
    Nat → Nat → ListenState → Nat × ListenState
  | 0, elapsed, s => (elapsed, s)
  | fuel + 1, elapsed, s =>
      if (elapsed : Int) < t then
        listenGo L t fuel (elapsed + 1) (pollOnce (L elapsed) s)
      else
        (elapsed, s)

/-- listen_for_messages (lines 108-119), keeping the full final loop
state: returns the elapsed time at exit together with the final
`(any_device_message_received, devices_reported_back)` pair. -/
def listenFull (L : Nat → List (String × Bool)) (t : Int) :
    Nat × ListenState :=
  listenGo L t t.toNat 0 initLS

/-- listen_for_messages as the source returns it (line 119): only the
boolean `any_device_message_received`; `devices_reported_back` is
dropped. -/
def listen_for_messages (L : Nat → List (String × Bool)) (t : Int) : Bool :=
  (listenFull L t).2.anyReceived

/-- A one-device schedule in which the single arrival for "a" happens
strictly after the poll at elapsed 0 and strictly before the deadline 1:
the ledger is still the initial one at instant 0 and already updated at
instant 1 (the moment the window closes). -/
def exL : Nat → List (String × Bool) :=
  fun k => [("a", decide (1 ≤ k))]

/-- A schedule whose ledger already has "a" true at instant 0. -/
def c6L : Nat → List (String × Bool) :=
  fun _ => [("a", true)]

/-- The two mutually exclusive command-line modes (lines 161-163). -/
inductive RunMode
  | check
  | debug
deriving DecidableEq

/-- The value of the `args.check` flag for a mode. -/
def RunMode.checkFlag : RunMode → Bool
  | RunMode.check => true
  | RunMode.debug => false

/-- The value of the `args.debug` flag for a mode. -/
def RunMode.debugFlag : RunMode → Bool
  | RunMode.check => false
  | RunMode.debug => true

/-- Message sent when create_mqtt_client returns None (line 128). -/
def connectFailMsg : String :=
  "Could not connect to MQTT broker. Please check your MQTT settings."

/-- Message sent in check mode when nothing was received (line 150). -/
def checkFailMsg : String :=
  "No MQTT message was received from any device. Please check."

/-- Message sent in debug mode when something was received (line 153). -/
def debugOkMsg : String :=
  "At least one device has sent an MQTT message. Your Zigbee Router/Repeater is working properly."

/-- Message sent in debug mode when nothing was received (line 155). -/
def debugFailMsg : String :=
  "No MQTT message was received from any device. Your Zigbee Router/Repeater may not be functioning properly. Please check."

/-- Log line printed by create_mqtt_client when client.connect raises
(line 90). -/
def connectErrLog : String :=
  "Error occurred while connecting to MQTT broker"

/-- Externally visible actions of a run, in program order. -/
inductive Event
  | connectAttempt
  | subscribe
  | loopStart
  | window
  | loopStop
  | notify (msg : String)
deriving DecidableEq

/-- send_telegram_notification (lines 51-67).  `post` is the outcome of
`requests.post` (ok, or a raised RequestException carrying its message).
The result is the pair (attempted notifications, printed log lines); the
except clause at lines 66-67 only prints, so the function always returns
normally whatever `post` is. -/
def send_telegram_notification (check debug success : Bool)
    (message : String) (post : Except String Unit) :
    List Event × List String :=
  if !(check || debug || success) then ([], [])
  else
    ([Event.notify message],
     (if success then ["Successful check: " ++ message] else []) ++
     (match post with
      | Except.ok _ => []
      | Except.error e =>
          ["Error occurred while sending Telegram notification: " ++ e]))

/-- A call of send_telegram_notification from main, which passes the
module-level args flags and leaves `success` at its default False. -/
def sendViaMode (mode : RunMode) (message : String)
    (post : Except String Unit) : List Event × List String :=
  send_telegram_notification mode.checkFlag mode.debugFlag false message post

/-- The notification decision at the end of main (lines 148-155). -/
def notificationDecision (mode : RunMode) (anyReceived : Bool)
    (post : Except String Unit) : List Event × List String :=
  match mode with
  | RunMode.check =>
      if anyReceived then ([], [])
      else sendViaMode RunMode.check checkFailMsg post
  | RunMode.debug =>
      if anyReceived then sendViaMode RunMode.debug debugOkMsg post
      else sendViaMode RunMode.debug debugFailMsg post

/-- Outcome of one execution of main: the trace of externally visible
actions, the printed log lines, and whether main terminated abnormally
(an exception escaping it). -/
structure RunOutcome where
  events : List Event
  logs : List String
  crashed : Bool
deriving DecidableEq

/-- mainRun models main (lines 122-155; the name main is reserved by
Lean for executables).  `connected` is whether create_mqtt_client
returned a client (true) or None (false); `window` is the outcome of the
listen_for_messages call (its boolean result, or an exception escaping
it); `post` is the Telegram delivery outcome passed through to
send_telegram_notification.  main is straight-line code: on a connection
failure it sends one message and returns; otherwise it subscribes,
starts the network loop, runs the window, stops the loop, and decides
the notification.  There is no try/finally, so an exception escaping
listen_for_messages skips stop_client_loop and the notification. -/
def mainRun (mode : RunMode) (connected : Bool) (window : Except Unit Bool)
    (post : Except String Unit) : RunOutcome :=
  if connected = false then
    let s := sendViaMode mode connectFailMsg post
    { events := Event.connectAttempt :: s.1,
      logs := connectErrLog :: s.2,
      crashed := false }
  else
    match window with
    | Except.error _ =>
        { events := [Event.connectAttempt, Event.subscribe,
                     Event.loopStart, Event.window],
          logs := [],
          crashed := true }
    | Except.ok anyReceived =>
        let s := notificationDecision mode anyReceived post
        { events := [Event.connectAttempt, Event.subscribe,
                     Event.loopStart, Event.window, Event.loopStop] ++ s.1,
          logs := s.2,
          crashed := false }

/-- The notification texts in a list of events, in order. -/
def notifTexts : List Event → List String
  | [] => []
  | Event.notify m :: es => m :: notifTexts es
  | Event.connectAttempt :: es => notifTexts es
  | Event.subscribe :: es => notifTexts es
  | Event.loopStart :: es => notifTexts es
  | Event.window :: es => notifTexts es
  | Event.loopStop :: es => notifTexts es

/-- The notifications attempted during a run, in order. -/
def notificationsOf (o : RunOutcome) : List String :=
  notifTexts o.events

/-- The configuration record read from config.ini (lines 36-45). -/
structure Config where
  mqttUser : String
  mqttPass : String
  mqttBroker : String
  devices : List String
  botToken : String
  chatId : String
deriving DecidableEq

/-- config.get(sect, opt): configparser raises NoOptionError (or
NoSectionError) when the field is absent; modelled as Except. -/
def configGet (cfg : String → String → Option String)
    (sect opt : String) : Except String String :=
  match cfg sect opt with
  | some v => Except.ok v
  | none => Except.error ("No option " ++ opt ++ " in section " ++ sect)

/-- The config-loading block (lines 30-45): six sequential gets, each
raising on a missing field, short-circuiting the rest; the DEVICES value
is split on ", " (line 41). -/
def loadConfig (cfg : String → String → Option String) :
    Except String Config :=
  match configGet cfg "MQTT" "USER" with
  | Except.error e => Except.error e
  | Except.ok u =>
    match configGet cfg "MQTT" "PASS" with
    | Except.error e => Except.error e
    | Except.ok p =>
      match configGet cfg "MQTT" "BROKER" with
      | Except.error e => Except.error e
      | Except.ok b =>
        match configGet cfg "DEVICES" "TOPICS" with
        | Except.error e => Except.error e
        | Except.ok d =>
          match configGet cfg "TELEGRAM" "BOT_TOKEN" with
          | Except.error e => Except.error e
          | Except.ok tok =>
            match configGet cfg "TELEGRAM" "CHAT_ID" with
            | Except.error e => Except.error e
            | Except.ok cid =>
              Except.ok
                { mqttUser := u, mqttPass := p, mqttBroker := b,
                  devices := d.splitOn ", ", botToken := tok,
                  chatId := cid }

/-- Outcome of the whole process. -/
structure ProcResult where
  exitCode : Nat
  events : List Event
  logs : List String
deriving DecidableEq

/-- The script at module level (lines 30-48 and 158-167): the config is
read first; on a missing field the process prints and calls sys.exit(1)
before any network code runs (main is only reached at line 167).
Otherwise main runs; an exception escaping main makes the process exit
abnormally, and a normal return exits 0. -/
def script (cfg : String → String → Option String) (mode : RunMode)
    (connected : Bool) (window : Except Unit Bool)
    (post : Except String Unit) : ProcResult :=
  match loadConfig cfg with
  | Except.error e =>
      { exitCode := 1, events := [],
        logs := ["Error occurred while reading config.ini file: " ++ e] }
  | Except.ok _ =>
      let o := mainRun mode connected window post
      { exitCode := if o.crashed then 1 else 0,
        events := o.events, logs := o.logs }

/-- When the deadline has already passed, the loop exits at once,
whatever fuel remains. -/
theorem listenGo_of_not_lt {L : Nat → List (String × Bool)} {t : Int}
    {elapsed : Nat} (h : ¬((elapsed : Int) < t)) :
    ∀ (fuel : Nat) (s : ListenState), listenGo L t fuel elapsed s = (elapsed, s) := by
  intro fuel s
  cases fuel with
  | zero => rfl
  | succ fuel => simp [listenGo, h]

/-- The fuel argument is only a bound: any two sufficient fuels give the
same result, so `listenGo` is a faithful embedding of the while loop. -/
theorem listenGo_fuel_irrelevant {L : Nat → List (String × Bool)} {t : Int} :
    ∀ (f₁ f₂ elapsed : Nat) (s : ListenState),
      t.toNat ≤ elapsed + f₁ → t.toNat ≤ elapsed + f₂ →
      listenGo L t f₁ elapsed s = listenGo L t f₂ elapsed s := by
  intro f₁
  induction f₁ with
  | zero =>
      intro f₂ elapsed s h₁ h₂
      have hnl : ¬((elapsed : Int) < t) := by omega
      rw [listenGo_of_not_lt hnl, listenGo_of_not_lt hnl]
  | succ f₁ ih =>
      intro f₂ elapsed s h₁ h₂
      by_cases hlt : (elapsed : Int) < t
      · cases f₂ with
        | zero =>
            have : ¬((elapsed : Int) < t) := by omega
            exact absurd hlt this
        | succ f₂ =>
            simp only [listenGo, if_pos hlt]
            exact ih f₂ (elapsed + 1) (pollOnce (L elapsed) s) (by omega) (by omega)
      · rw [listenGo_of_not_lt hlt, listenGo_of_not_lt hlt]

/-- With the exact fuel, the loop exits exactly when elapsed time has
reached the deadline: the first component of the result is `t.toNat`. -/
theorem listenGo_fst_exact {L : Nat → List (String × Bool)} {t : Int} :
    ∀ (fuel elapsed : Nat) (s : ListenState),
      elapsed + fuel = t.toNat → (listenGo L t fuel elapsed s).1 = t.toNat := by
  intro fuel
  induction fuel with
  | zero =>
      intro elapsed s h
      simp [listenGo]
      omega
  | succ fuel ih =>
      intro elapsed s h
      have hlt : (elapsed : Int) < t := by omega
      simp only [listenGo, if_pos hlt]
      exact ih (elapsed + 1) (pollOnce (L elapsed) s) (by omega)

/-- Membership in a fold of inserts over an association list. -/
theorem mem_foldl_insert (d : String) :
    ∀ (l : List (String × Bool)) (acc : Finset String),
      d ∈ l.foldl (fun a p => insert p.1 a) acc ↔
        d ∈ acc ∨ ∃ b, (d, b) ∈ l := by
  intro l
  induction l with
  | nil => intro acc; simp
  | cons p l ih =>
      intro acc
      rw [List.foldl_cons, ih]
      constructor
      · rintro (hmem | ⟨b, hb⟩)
        · rcases Finset.mem_insert.mp hmem with h | h
          · exact Or.inr ⟨p.2, by rw [h]; simp⟩
          · exact Or.inl h
        · exact Or.inr ⟨b, List.mem_cons_of_mem _ hb⟩
      · rintro (hmem | ⟨b, hb⟩)
        · exact Or.inl (Finset.mem_insert_of_mem hmem)
        · rcases List.mem_cons.mp hb with h | h
          · exact Or.inl (Finset.mem_insert.mpr (Or.inl (by rw [← h])))
          · exact Or.inr ⟨b, h⟩

/-- Membership in the reported set after one poll of a ledger snapshot. -/
theorem mem_pollOnce_reported (ledger : List (String × Bool))
    (s : ListenState) (d : String) :
    d ∈ (pollOnce ledger s).reported ↔
      d ∈ s.reported ∨ (d, true) ∈ ledger := by
  by_cases h : ledger.any (fun p => p.2) = true
  · simp only [pollOnce, if_pos h]
    rw [mem_foldl_insert]
    constructor
    · rintro (hm | ⟨b, hb⟩)
      · exact Or.inl hm
      · rcases List.mem_filter.mp hb with ⟨hmem, hb2⟩
        have : b = true := by simpa using hb2
        exact Or.inr (by rwa [this] at hmem)
    · rintro (hm | hmem)
      · exact Or.inl hm
      · exact Or.inr ⟨true, List.mem_filter.mpr ⟨hmem, by simp⟩⟩
  · simp only [pollOnce, if_neg h]
    have : (d, true) ∉ ledger := by
      intro hmem
      exact h (List.any_eq_true.mpr ⟨(d, true), hmem, rfl⟩)
    simp [this]

/-- The aggregate flag after one poll. -/
theorem pollOnce_anyReceived (ledger : List (String × Bool)) (s : ListenState) :
    (pollOnce ledger s).anyReceived =
      (s.anyReceived || ledger.any (fun p => p.2)) := by
  by_cases h : ledger.any (fun p => p.2) = true
  · simp [pollOnce, h]
  · simp [pollOnce, h, Bool.eq_false_iff.mpr h]

/-- A value is true in the ledger snapshot iff some key witnesses it. -/
theorem any_snd_iff (ledger : List (String × Bool)) :
    ledger.any (fun p => p.2) = true ↔ ∃ d, (d, true) ∈ ledger := by
  rw [List.any_eq_true]
  constructor
  · rintro ⟨p, hp, h2⟩
    exact ⟨p.1, by rwa [show p = (p.1, true) from by
      cases p with | mk a b => simp at h2; simp [h2]] at hp⟩
  · rintro ⟨d, hd⟩
    exact ⟨(d, true), hd, rfl⟩

/-- Characterization of the reported set: with the exact fuel, a device
is in the final set iff it was already there or its ledger entry was
true at some polled instant (elapsed times from `elapsed` up to, but not
including, the deadline). -/
theorem listenGo_mem_reported {L : Nat → List (String × Bool)} {t : Int} :
    ∀ (fuel elapsed : Nat) (s : ListenState) (d : String),
      elapsed + fuel = t.toNat →
      (d ∈ (listenGo L t fuel elapsed s).2.reported ↔
        d ∈ s.reported ∨ ∃ k, elapsed ≤ k ∧ k < t.toNat ∧ (d, true) ∈ L k) := by
  intro fuel
  induction fuel with
  | zero =>
      intro elapsed s d h
      simp only [listenGo]
      constructor
      · exact fun hm => Or.inl hm
      · rintro (hm | ⟨k, hk1, hk2, _⟩)
        · exact hm
        · omega
  | succ fuel ih =>
      intro elapsed s d h
      have hlt : (elapsed : Int) < t := by omega
      simp only [listenGo, if_pos hlt]
      rw [ih (elapsed + 1) (pollOnce (L elapsed) s) d (by omega),
          mem_pollOnce_reported]
      constructor
      · rintro ((hm | hL) | ⟨k, hk1, hk2, hk3⟩)
        · exact Or.inl hm
        · exact Or.inr ⟨elapsed, le_refl _, by omega, hL⟩
        · exact Or.inr ⟨k, by omega, hk2, hk3⟩
      · rintro (hm | ⟨k, hk1, hk2, hk3⟩)
        · exact Or.inl (Or.inl hm)
        · by_cases hke : k = elapsed
          · exact Or.inl (Or.inr (by rwa [hke] at hk3))
          · exact Or.inr ⟨k, by omega, hk2, hk3⟩

/-- Characterization of the aggregate flag: with the exact fuel, it is
true at exit iff it was already true or some ledger entry was true at
some polled instant. -/
theorem listenGo_anyReceived {L : Nat → List (String × Bool)} {t : Int} :
    ∀ (fuel elapsed : Nat) (s : ListenState),
      elapsed + fuel = t.toNat →
      ((listenGo L t fuel elapsed s).2.anyReceived = true ↔
        s.anyReceived = true ∨
          ∃ k, elapsed ≤ k ∧ k < t.toNat ∧ ∃ d, (d, true) ∈ L k) := by
  intro fuel
  induction fuel with
  | zero =>
      intro elapsed s h
      simp only [listenGo]
      constructor
      · exact fun hm => Or.inl hm
      · rintro (hm | ⟨k, hk1, hk2, _⟩)
        · exact hm
        · omega
  | succ fuel ih =>
      intro elapsed s h
      have hlt : (elapsed : Int) < t := by omega
      simp only [listenGo, if_pos hlt]
      rw [ih (elapsed + 1) (pollOnce (L elapsed) s) (by omega)]
      rw [pollOnce_anyReceived, Bool.or_eq_true, any_snd_iff]
      constructor
      · rintro ((hm | hL) | ⟨k, hk1, hk2, hk3⟩)
        · exact Or.inl hm
        · exact Or.inr ⟨elapsed, le_refl _, by omega, hL⟩
        · exact Or.inr ⟨k, by omega, hk2, hk3⟩
      · rintro (hm | ⟨k, hk1, hk2, hk3⟩)
        · exact Or.inl (Or.inl hm)
        · by_cases hke : k = elapsed
          · exact Or.inl (Or.inr (by rwa [hke] at hk3))
          · exact Or.inr ⟨k, by omega, hk2, hk3⟩

/-- Writing to a key already present leaves the key set unchanged. -/
theorem keysOf_dictSet_of_mem {l : List (String × Bool)} {k : String}
    (v : Bool) (h : k ∈ keysOf l) : keysOf (dictSet l k v) = keysOf l := by
  have hany : l.any (fun p => decide (p.1 = k)) = true := by
    rcases List.mem_map.mp h with ⟨p, hp, hpk⟩
    exact List.any_eq_true.mpr ⟨p, hp, by simp [hpk]⟩
  simp only [dictSet, if_pos hany, keysOf, List.map_map]
  congr 1
  funext p
  by_cases hpk : p.1 = k <;> simp [hpk]

/-- The initial ledger's keys are exactly the configured devices. -/
theorem mem_keysOf_init {k : String} {devices : List String} :
    k ∈ keysOf (init_message_received devices) ↔ k ∈ devices := by
  simp [keysOf, init_message_received, List.map_map, Function.comp]

/-- on_message for a topic already among the keys preserves the key set. -/
theorem keysOf_on_message_of_mem {l : List (String × Bool)} {topic : String}
    (h : topic ∈ keysOf l) : keysOf (on_message l topic) = keysOf l :=
  keysOf_dictSet_of_mem true h

/-- Folding callbacks whose topics all lie in the current key set
preserves the key set. -/
theorem keysOf_foldl_on_message :
    ∀ (topics : List String) (l : List (String × Bool)),
      (∀ x ∈ topics, x ∈ keysOf l) →
      keysOf (topics.foldl on_message l) = keysOf l := by
  intro topics
  induction topics with
  | nil => intro l _; rfl
  | cons topic topics ih =>
      intro l h
      rw [List.foldl_cons]
      have hk : topic ∈ keysOf l := h topic (List.mem_cons_self _ _)
      have hpres := keysOf_on_message_of_mem hk
      rw [ih (on_message l topic) (fun x hx => by
        rw [hpres]; exact h x (List.mem_cons_of_mem _ hx)), hpres]

/-- A true value survives the in-place update map of dictSet. -/
theorem getFlag_map_setTrue {k topic : String} :
    ∀ (l : List (String × Bool)), getFlag l k = some true →
      getFlag (l.map (fun p => if p.1 = topic then (p.1, true) else p)) k =
        some true := by
  intro l
  induction l with
  | nil => intro h; simp [getFlag] at h
  | cons p l ih =>
      obtain ⟨a, b⟩ := p
      intro h
      by_cases hak : a = k
      · have hb : b = true := by simpa [getFlag, hak] using h
        subst hb
        by_cases hat : a = topic
        · have htk : topic = k := by rw [← hat]; exact hak
          simp [getFlag, hat, htk]
        · simp [getFlag, hat, hak]
      · have h2 : getFlag l k = some true := by simpa [getFlag, hak] using h
        by_cases hat : a = topic
        · have htk : ¬topic = k := fun he => hak (hat.trans he)
          simpa [getFlag, hat, htk] using ih h2
        · simpa [getFlag, hat, hak] using ih h2

/-- A present key's value is unaffected by appending new entries. -/
theorem getFlag_append_of_some {k : String} {v : Bool} :
    ∀ (l l2 : List (String × Bool)), getFlag l k = some v →
      getFlag (l ++ l2) k = some v := by
  intro l l2
  induction l with
  | nil => intro h; simp [getFlag] at h
  | cons p l ih =>
      intro h
      by_cases hpk : p.1 = k
      · simp only [getFlag, if_pos hpk] at h ⊢
        exact h
      · simp only [getFlag, if_neg hpk] at h ⊢
        exact ih h

/-- on_message never resets a true entry: once a device's flag is true
it stays true, whatever topic arrives next. -/
theorem getFlag_on_message_mono {l : List (String × Bool)}
    {k topic : String} (h : getFlag l k = some true) :
    getFlag (on_message l topic) k = some true := by
  unfold on_message dictSet
  by_cases hany : l.any (fun p => decide (p.1 = topic)) = true
  · rw [if_pos hany]
    exact getFlag_map_setTrue l h
  · rw [if_neg hany]
    exact getFlag_append_of_some l [(topic, true)] h

/-- Folding further callbacks preserves a true entry. -/
theorem getFlag_foldl_on_message_mono {k : String} :
    ∀ (topics : List String) (l : List (String × Bool)),
      getFlag l k = some true →
      getFlag (topics.foldl on_message l) k = some true := by
  intro topics
  induction topics with
  | nil => intro l h; exact h
  | cons topic topics ih =>
      intro l h
      rw [List.foldl_cons]
      exact ih (on_message l topic) (getFlag_on_message_mono h)

/-- The notifications attempted by send_telegram_notification do not
depend on the delivery outcome: only the printed log does. -/
theorem send_events_const (check debug success : Bool) (message : String)
    (post : Except String Unit) :
    (send_telegram_notification check debug success message post).1 =
      if !(check || debug || success) then [] else [Event.notify message] := by
  cases post <;> simp [send_telegram_notification] <;> split <;> rfl

/-- Missing any required configuration field makes the config-loading
block raise, whichever field it is. -/
theorem loadConfig_error_of_missing
    (cfg : String → String → Option String)
    (h : cfg "MQTT" "USER" = none ∨ cfg "MQTT" "PASS" = none ∨
      cfg "MQTT" "BROKER" = none ∨ cfg "DEVICES" "TOPICS" = none ∨
      cfg "TELEGRAM" "BOT_TOKEN" = none ∨ cfg "TELEGRAM" "CHAT_ID" = none) :
    ∃ e, loadConfig cfg = Except.error e := by
  unfold loadConfig configGet
  cases h1 : cfg "MQTT" "USER" <;> cases h2 : cfg "MQTT" "PASS" <;>
    cases h3 : cfg "MQTT" "BROKER" <;> cases h4 : cfg "DEVICES" "TOPICS" <;>
      cases h5 : cfg "TELEGRAM" "BOT_TOKEN" <;>
        cases h6 : cfg "TELEGRAM" "CHAT_ID" <;> simp_all

/-- Claim C1 (amended): listen_for_messages returns only the aggregate
boolean; the internally accumulated devices_reported_back set contains
exactly the sources whose ledger entry was true at some polled instant
(elapsed seconds 0 .. deadline-1, i.e. up to one polling interval before
the window closes, not at the close itself), and the aggregate boolean
is true iff that set is non-empty. -/
theorem listen_result_characterization :
    ∀ (L : Nat → List (String × Bool)) (t : Int),
      (listen_for_messages L t = true ↔ (listenFull L t).2.reported ≠ ∅) ∧
      (∀ d, d ∈ (listenFull L t).2.reported ↔
        ∃ k, k < t.toNat ∧ (d, true) ∈ L k) ∧
      listen_for_messages L t = (listenFull L t).2.anyReceived := by
  intro L t
  have hmem : ∀ d, d ∈ (listenFull L t).2.reported ↔
      ∃ k, k < t.toNat ∧ (d, true) ∈ L k := by
    intro d
    have := listenGo_mem_reported (L := L) (t := t) t.toNat 0 initLS d (by omega)
    rw [listenFull, this]
    simp [initLS]
  have hany : (listenFull L t).2.anyReceived = true ↔
      ∃ k, k < t.toNat ∧ ∃ d, (d, true) ∈ L k := by
    have := listenGo_anyReceived (L := L) (t := t) t.toNat 0 initLS (by omega)
    rw [listenFull, this]
    simp [initLS]
  refine ⟨?_, hmem, rfl⟩
  rw [listen_for_messages, hany]
  constructor
  · rintro ⟨k, hk, d, hd⟩ hempty
    have hdm : d ∈ (listenFull L t).2.reported := (hmem d).mpr ⟨k, hk, hd⟩
    rw [hempty] at hdm
    simp at hdm
  · intro hne
    obtain ⟨d, hd⟩ := Finset.nonempty_iff_ne_empty.mpr hne
    obtain ⟨k, hk, hL⟩ := (hmem d).mp hd
    exact ⟨k, hk, d, hL⟩

/-- Claim C1 counterexample: with one configured device "a", deadline 1,
and a single arrival that lands after the lone poll at elapsed 0 but
strictly before the window closes at elapsed 1 (the ledger is untouched
at instant 0 and updated at instant 1 — exactly one on_message
invocation), the window closes with "a" true in the ledger, yet the
accumulated reported set is empty and the returned aggregate is false,
so the result is not a snapshot of the ledger at the moment the window
closes — and the function returns only the boolean, never the set. -/
theorem listen_close_snapshot_counterexample :
    (listenFull exL 1).1 = 1 ∧
    ("a", true) ∈ exL 1 ∧
    ("a", true) ∉ exL 0 ∧
    exL 1 = on_message (exL 0) "a" ∧
    (listenFull exL 1).2.reported = ∅ ∧
    listen_for_messages exL 1 = false := by decide

/-- Claim C2 counterexample: a single arrival callback whose topic "b"
is outside the configured source set ["a"] (possible whenever a
configured topic filter is a wildcard, since on_message writes
`userdata['message_received'][msg.topic] = True` with no membership
guard) adds a brand-new key to the ledger. -/
theorem ledger_key_added_counterexample :
    keysOf (on_message (init_message_received ["a"]) "b") = ["a", "b"] ∧
    "b" ∉ (["a"] : List String) := by decide

/-- Claim C2 (amended): provided every arrival callback's topic lies in
the configured source set, the ledger's key set stays exactly the
configured set, and values are monotone: an entry that is true after
some prefix of the callbacks is still true after the whole run (writes
only ever store true, never false). -/
theorem ledger_keys_fixed_monotone :
    ∀ (devices topics : List String),
      (∀ x ∈ topics, x ∈ devices) →
      (∀ k, k ∈ keysOf (runLedger devices topics) ↔ k ∈ devices) ∧
      (∀ pre suf k, topics = pre ++ suf →
        getFlag (runLedger devices pre) k = some true →
        getFlag (runLedger devices topics) k = some true) := by
  intro devices topics h
  constructor
  · intro k
    rw [runLedger, keysOf_foldl_on_message topics _
      (fun x hx => mem_keysOf_init.mpr (h x hx))]
    exact mem_keysOf_init
  · intro pre suf k hsplit htrue
    rw [hsplit]
    simp only [runLedger, List.foldl_append] at htrue ⊢
    exact getFlag_foldl_on_message_mono suf _ htrue

/-- Claim C2 witness: concrete instantiation of the amended invariant. -/
theorem ledger_keys_fixed_monotone_witness :
    "a" ∈ keysOf (runLedger ["a", "b"] ["a"]) ∧
    getFlag (runLedger ["a", "b"] ["a", "a"]) "a" = some true :=
  ⟨((ledger_keys_fixed_monotone ["a", "b"] ["a"] (by decide)).1 "a").mpr
      (by decide),
   (ledger_keys_fixed_monotone ["a", "b"] ["a", "a"] (by decide)).2
      ["a"] ["a"] "a" rfl (by decide)⟩

/-- Claim C3 (confirmed): for a non-negative deadline the polling loop
runs until elapsed time equals the deadline exactly — the exit elapsed
time is the deadline for every arrival schedule, so observed activity
never shortens (or lengthens) the window, and the duration is identical
across schedules. -/
theorem window_duration_full_deadline :
    ∀ (L L2 : Nat → List (String × Bool)) (t : Int), 0 ≤ t →
      (listenFull L t).1 = t.toNat ∧
      ((listenFull L t).1 : Int) = t ∧
      (listenFull L t).1 = (listenFull L2 t).1 := by
  intro L L2 t ht
  have h1 : (listenFull L t).1 = t.toNat :=
    listenGo_fst_exact t.toNat 0 initLS (by omega)
  have h2 : (listenFull L2 t).1 = t.toNat :=
    listenGo_fst_exact t.toNat 0 initLS (by omega)
  refine ⟨h1, ?_, by rw [h1, h2]⟩
  rw [h1]
  omega

/-- Claim C3 witness: a 3-second window with activity present from the
start still runs the full 3 seconds. -/
theorem window_duration_full_deadline_witness :
    ((0 : Int) ≤ 3) ∧ (listenFull c6L 3).1 = (3 : Int).toNat :=
  ⟨by decide, (window_duration_full_deadline c6L exL 3 (by decide)).1⟩

/-- Claim C4 (confirmed): the notification decision is a total
deterministic function of (RunMode, anyActivity, connectionSucceeded)
with exactly the table of section 4.3: connection failure sends the
connect-failure message as the sole output and neither the window nor a
subscription ever runs; check mode with activity sends nothing; check
mode without activity sends the no-activity alert; debug mode sends
exactly one diagnostic whose text is determined by anyActivity. -/
theorem notification_policy_table :
    ∀ (mode : RunMode) (anyReceived : Bool) (window : Except Unit Bool)
      (post : Except String Unit),
      (notificationsOf (mainRun mode false window post) = [connectFailMsg] ∧
        Event.window ∉ (mainRun mode false window post).events ∧
        Event.subscribe ∉ (mainRun mode false window post).events) ∧
      notificationsOf (mainRun RunMode.check true (Except.ok true) post)
        = [] ∧
      notificationsOf (mainRun RunMode.check true (Except.ok false) post)
        = [checkFailMsg] ∧
      notificationsOf (mainRun RunMode.debug true (Except.ok anyReceived) post)
        = [if anyReceived then debugOkMsg else debugFailMsg] := by
  intro mode anyReceived window post
  cases mode <;> cases anyReceived <;> cases post <;>
    simp [mainRun, notificationsOf, notifTexts, notificationDecision,
      sendViaMode, send_telegram_notification, RunMode.checkFlag,
      RunMode.debugFlag]

/-- Claim C5 counterexample: an arrival strictly inside the window but
after the last poll (single callback for "a" between elapsed 0 and the
deadline 1: ledger untouched at instant 0, updated by the time the
window closes at elapsed 1) is never polled, so "a" is missing from the
reported set even though its callback fired strictly before the
deadline. -/
theorem late_arrival_missed_counterexample :
    ("a", true) ∉ exL 0 ∧ ("a", true) ∈ exL 1 ∧
    (listenFull exL 1).1 = 1 ∧
    "a" ∉ (listenFull exL 1).2.reported ∧
    listen_for_messages exL 1 = false := by decide

/-- Claim C5 (amended): if the arrival for x is visible at some polled
instant — any elapsed second k with k < deadline, i.e. the callback
fires at least one polling interval before the deadline — then x is in
the reported set, regardless of what further callbacks do afterward. -/
theorem arrival_before_last_poll_reported :
    ∀ (L : Nat → List (String × Bool)) (t : Int) (d : String) (k : Nat),
      k < t.toNat → (d, true) ∈ L k →
      d ∈ (listenFull L t).2.reported := by
  intro L t d k hk hd
  show d ∈ (listenGo L t t.toNat 0 initLS).2.reported
  rw [listenGo_mem_reported t.toNat 0 initLS d (by omega)]
  exact Or.inr ⟨k, Nat.zero_le k, hk, hd⟩

/-- Claim C5 witness: an arrival visible at elapsed 0 of a 2-second
window lands in the reported set. -/
theorem arrival_before_last_poll_reported_witness :
    (0 < (2 : Int).toNat) ∧ ("a", true) ∈ c6L 0 ∧
    "a" ∈ (listenFull c6L 2).2.reported :=
  ⟨by decide, by decide,
   arrival_before_last_poll_reported c6L 2 "a" 0 (by decide) (by decide)⟩

/-- Claim C6 (amended): with deadline 0 the loop condition fails at the
very first check, so the ledger is never evaluated — zero polls — and
the function returns elapsed 0 with the untouched initial state:
anyActivity false and an empty reported set, regardless of what has
already arrived. -/
theorem zero_deadline_no_poll :
    ∀ (L : Nat → List (String × Bool)),
      listenFull L 0 = (0, initLS) ∧ listen_for_messages L 0 = false := by
  intro L
  exact ⟨rfl, rfl⟩

/-- Claim C6 counterexample: with deadline 0 and a ledger in which "a"
is already true at instant 0, a single evaluation of the ledger at
elapsed 0 would report activity, but the code returns the untouched
initial state — false and an empty set — so the ledger is evaluated
zero times, not exactly once. -/
theorem zero_deadline_ignores_ledger_counterexample :
    ("a", true) ∈ c6L 0 ∧
    (listenFull c6L 0).2 = initLS ∧
    (listenFull c6L 0).2.reported = ∅ ∧
    listen_for_messages c6L 0 = false := by decide

/-- Claim C7 counterexample: main has no try/finally, so on the path
where the connection opened but listen_for_messages raises, the run
crashes without ever reaching stop_client_loop — the close operation is
skipped on that exit path. -/
theorem window_failure_skips_stop_counterexample :
    Event.loopStop ∉
      (mainRun RunMode.check true (Except.error ()) (Except.ok ())).events ∧
    (mainRun RunMode.check true (Except.error ()) (Except.ok ())).crashed
      = true := by decide

/-- Claim C7 (amended): when the connection opened and the window
returns normally, stop_client_loop does run (before the verdict is
reported) and the run completes normally; the guarantee holds only on
this normal path, not on every exit path. -/
theorem normal_path_runs_stop :
    ∀ (mode : RunMode) (anyReceived : Bool) (post : Except String Unit),
      Event.loopStop ∈
        (mainRun mode true (Except.ok anyReceived) post).events ∧
      (mainRun mode true (Except.ok anyReceived) post).crashed = false := by
  intro mode anyReceived post
  cases mode <;> cases anyReceived <;> cases post <;>
    simp [mainRun, notificationDecision, sendViaMode,
      send_telegram_notification, RunMode.checkFlag, RunMode.debugFlag]

/-- Claim C8 (confirmed): the Telegram delivery outcome is invisible to
everything but the log: the events of the run (hence the verdict and
which notification was decided) and whether the run completes normally
(hence the exit code) are identical whether requests.post succeeds or
raises — the except clause swallows the failure, printing only. -/
theorem telegram_failure_swallowed :
    ∀ (mode : RunMode) (connected : Bool) (window : Except Unit Bool)
      (p1 p2 : Except String Unit),
      (mainRun mode connected window p1).events =
        (mainRun mode connected window p2).events ∧
      (mainRun mode connected window p1).crashed =
        (mainRun mode connected window p2).crashed := by
  intro mode connected window p1 p2
  cases connected
  · constructor <;>
      simp [mainRun, sendViaMode, send_events_const]
  · rcases window with u | wb
    · exact ⟨rfl, rfl⟩
    · cases mode <;> cases wb <;>
        constructor <;>
          simp [mainRun, notificationDecision, sendViaMode, send_events_const]

/-- Claim C9 (confirmed): if any of the six required configuration
fields is absent, the process exits with status 1 and its event trace
is empty — no connection attempt, no subscription, no notification —
because the config block at module level raises and sys.exit(1) runs
before main is ever reached. -/
theorem missing_config_aborts_before_network :
    ∀ (cfg : String → String → Option String) (mode : RunMode)
      (connected : Bool) (window : Except Unit Bool)
      (post : Except String Unit),
      (cfg "MQTT" "USER" = none ∨ cfg "MQTT" "PASS" = none ∨
        cfg "MQTT" "BROKER" = none ∨ cfg "DEVICES" "TOPICS" = none ∨
        cfg "TELEGRAM" "BOT_TOKEN" = none ∨
        cfg "TELEGRAM" "CHAT_ID" = none) →
      (script cfg mode connected window post).exitCode = 1 ∧
      (script cfg mode connected window post).events = [] := by
  intro cfg mode connected window post h
  obtain ⟨e, he⟩ := loadConfig_error_of_missing cfg h
  constructor <;> simp [script, he]

/-- Claim C9 witness: an empty configuration aborts with exit code 1 and
an empty event trace. -/
theorem missing_config_aborts_before_network_witness :
    (script (fun _ _ => none) RunMode.check true (Except.ok false)
      (Except.ok ())).exitCode = 1 ∧
    (script (fun _ _ => none) RunMode.check true (Except.ok false)
      (Except.ok ())).events = [] :=
  missing_config_aborts_before_network (fun _ _ => none) RunMode.check true
    (Except.ok false) (Except.ok ()) (Or.inl rfl)

/-- Claim C10 (confirmed): for a negative listen_time (the CLI parses
--time as an arbitrary int) the loop condition fails immediately:
listen_for_messages performs zero polls — it never inspects the ledger
— and returns elapsed 0, the untouched initial state, and the boolean
false. -/
theorem negative_time_returns_immediately :
    ∀ (L : Nat → List (String × Bool)) (t : Int), t < 0 →
      listenFull L t = (0, initLS) ∧ listen_for_messages L t = false := by
  intro L t ht
  have h0 : t.toNat = 0 := by omega
  refine ⟨?_, ?_⟩
  · show listenGo L t t.toNat 0 initLS = (0, initLS)
    rw [h0]
    rfl
  · show (listenGo L t t.toNat 0 initLS).2.anyReceived = false
    rw [h0]
    rfl

/-- Claim C10 witness: listen_time -1 with a ledger already showing
activity still returns false immediately. -/
theorem negative_time_returns_immediately_witness :
    ((-1 : Int) < 0) ∧ listen_for_messages c6L (-1) = false :=
  ⟨by decide, (negative_time_returns_immediately c6L (-1) (by decide)).2⟩
